import Mathlib

/-!
Shallow embedding of the Checklist Lifecycle & Safety Analytics Engine of the
eoi_firebase repository (Mining Safety Dashboard).

Sources embedded:
- `src/src/types/index.ts` — data model (Checklist, ChecklistItem, Alert, Incident enums)
- `src/unnamed/part_000` — `ChecklistService` (`updateChecklistItem`, `getChecklistStats`)
- `src/src/services/alertService.ts` — `AlertService` (`getActiveAlerts`, `acknowledgeAlert`,
  `updateAlertStatus`)
- `src/functions/src/index.ts` — `checkOverdueChecklists` sweep and its `createAlert` helper
- `src/unnamed/part_001` — the `GET /safety-score` analytics handler

Timestamps (`Date` values) are modelled as integers (epoch milliseconds); JS `Date`
comparison is integer comparison. Firestore documents are modelled as lists of records,
with document lookup by the `id` field. JS `Math.round` on rationals is Mathlib's
`round` (both are `⌊x + 1/2⌋`).
-/

namespace EoiFirebase

/-- `ChecklistStatus` from `src/src/types/index.ts`. -/
inductive ChecklistStatus
  | pending
  | in_progress
  | completed
  | overdue
deriving DecidableEq, Repr

/-- `ChecklistItem` from `src/src/types/index.ts`; optional `Date`/string fields are
`Option`s. -/
structure ChecklistItem where
  id : String
  description : String
  isCompleted : Bool
  completedAt : Option Int
  completedBy : Option String
  notes : Option String
  requiresPhoto : Bool
  photoUrl : Option String
deriving DecidableEq, Repr

/-- `Checklist` from `src/src/types/index.ts` (fields not read by the embedded
operations — `assignedToName`, `shift`, `description` of the checklist — are kept
where they matter for frame claims; `dueDate`, `createdAt`, `updatedAt` are epoch
integers). -/
structure Checklist where
  id : String
  title : String
  description : String
  category : String
  status : ChecklistStatus
  items : List ChecklistItem
  assignedTo : String
  dueDate : Int
  completedAt : Option Int
  mineSection : String
  createdAt : Int
  updatedAt : Int
deriving DecidableEq, Repr

/-- A `Partial<ChecklistItem>` patch as passed to `updateChecklistItem`: `none` means
the key is absent from the JS object. (`completedAt`/`completedBy` are always
overwritten by the service, so they are not patchable fields here; `id` and
`requiresPhoto` are never patched by any caller.) -/
structure ItemPatch where
  isCompleted : Option Bool := none
  description : Option String := none
  notes : Option String := none
  photoUrl : Option String := none
deriving DecidableEq, Repr

/-- The item-merge step of `ChecklistService.updateChecklistItem`
(`src/unnamed/part_000` lines 123–128):
`{ ...item, ...updates, completedAt: updates.isCompleted ? new Date() : undefined,
completedBy: updates.isCompleted ? userId : undefined }`.
JS truthiness: `updates.isCompleted` is truthy exactly when it is present and `true`. -/
def mergeItemPatch (item : ChecklistItem) (updates : ItemPatch) (userId : String)
    (now : Int) : ChecklistItem :=
  { id := item.id
    description := updates.description.getD item.description
    isCompleted := updates.isCompleted.getD item.isCompleted
    notes := match updates.notes with | some v => some v | none => item.notes
    requiresPhoto := item.requiresPhoto
    photoUrl := match updates.photoUrl with | some v => some v | none => item.photoUrl
    completedAt := if updates.isCompleted = some true then some now else none
    completedBy := if updates.isCompleted = some true then some userId else none }

/-- `items.findIndex(item => item.id === itemId)` followed by assignment to
`items[itemIndex]`: replace the first item with the given id, `none` when no item
matches (`itemIndex === -1`). -/
def updateFirstItem (items : List ChecklistItem) (itemId : String)
    (f : ChecklistItem → ChecklistItem) : Option (List ChecklistItem) :=
  match items with
  | [] => none
  | i :: rest =>
    if i.id = itemId then some (f i :: rest)
    else Option.map (fun l => i :: l) (updateFirstItem rest itemId f)

/-- `ChecklistService.updateChecklistItem` (`src/unnamed/part_000` lines 110–151) as a
pure state transformer: `none` models the `null` returns (checklist or item not
found). `now` stands for the `new Date()` calls made during the update. -/
def updateChecklistItem (checklist : Checklist) (itemId : String) (updates : ItemPatch)
    (userId : String) (now : Int) : Option Checklist :=
  match updateFirstItem checklist.items itemId
      (fun item => mergeItemPatch item updates userId now) with
  | none => none
  | some newItems =>
    let completedCount := (newItems.filter (fun item => item.isCompleted)).length
    let newStatus : ChecklistStatus :=
      if completedCount = newItems.length then .completed
      else if 0 < completedCount then .in_progress
      else if checklist.dueDate < now then .overdue
      else .pending
    some { checklist with
      items := newItems
      status := newStatus
      updatedAt := now
      completedAt := if newStatus = .completed then some now else none }

/-- The status-derivation rule as the spec states it (§4.1): a pure function of
`(completedCount, n, dueDate, now)`. -/
def specStatus (completedCount n : Nat) (dueDate now : Int) : ChecklistStatus :=
  if completedCount = n then .completed
  else if 0 < completedCount ∧ completedCount < n then .in_progress
  else if completedCount = 0 ∧ dueDate < now then .overdue
  else .pending

/-- One `updateChecklistItem` request (the `new Date()` of the call is `now`). -/
structure UpdateCall where
  itemId : String
  patch : ItemPatch
  userId : String
  now : Int
deriving Repr

/-- A sequence of `updateChecklistItem` calls, all of which succeed. -/
def runUpdates (c : Checklist) : List UpdateCall → Option Checklist
  | [] => some c
  | u :: rest =>
    match updateChecklistItem c u.itemId u.patch u.userId u.now with
    | none => none
    | some c2 => runUpdates c2 rest

/-- Number of items whose completion flag is set. -/
def completedCount (items : List ChecklistItem) : Nat :=
  (items.filter (fun item => item.isCompleted)).length

/-- `AlertPriority` from `src/src/types/index.ts`. -/
inductive AlertPriority
  | info
  | warning
  | urgent
  | emergency
deriving DecidableEq, Repr

/-- `AlertStatus` from `src/src/types/index.ts`. -/
inductive AlertStatus
  | active
  | acknowledged
  | resolved
deriving DecidableEq, Repr

/-- `Alert` from `src/src/types/index.ts`. -/
structure Alert where
  id : String
  title : String
  message : String
  priority : AlertPriority
  status : AlertStatus
  targetSections : List String
  targetRoles : List String
  createdBy : String
  createdByName : String
  acknowledgedBy : List String
  createdAt : Int
  expiresAt : Option Int
deriving DecidableEq, Repr

/-- The `createAlert` helper of `src/functions/src/index.ts` (lines 283–302):
`db.collection('alerts').add({...})`. `id` stands for the auto-generated document id,
`now` for `new Date()`. -/
def functionsCreateAlert (title message : String) (priority : AlertPriority)
    (targetSections targetRoles : List String) (id : String) (now : Int) : Alert :=
  { id := id
    title := title
    message := message
    priority := priority
    status := .active
    targetSections := targetSections
    targetRoles := targetRoles
    createdBy := "system"
    createdByName := "System"
    acknowledgedBy := []
    createdAt := now
    expiresAt := none }

/-- The Firestore query predicate of the overdue sweep:
`.where('status', 'in', ['pending', 'in_progress']).where('dueDate', '<', now)`. -/
def isOverdueCandidate (now : Int) (c : Checklist) : Bool :=
  (c.status == ChecklistStatus.pending || c.status == ChecklistStatus.in_progress)
    && decide (c.dueDate < now)

/-- The slice of store state the overdue sweep touches: the `checklists` collection
and the `alerts` collection. -/
structure SweepState where
  checklists : List Checklist
  alerts : List Alert
deriving DecidableEq, Repr

/-- The scheduled `checkOverdueChecklists` function (`src/functions/src/index.ts`
lines 148–187): query the matching checklists, batch-update each matched document's
`status` to `'overdue'`, and — only when the matched count is positive — commit the
batch and add one warning alert via the `createAlert` helper. `alertId` stands for
the auto-generated id of that alert document. -/
def checkOverdueChecklists (now : Int) (alertId : String) (st : SweepState) :
    SweepState :=
  let overdueCount := (st.checklists.filter (isOverdueCandidate now)).length
  if 0 < overdueCount then
    { checklists := st.checklists.map fun c =>
        if isOverdueCandidate now c then { c with status := .overdue } else c
      alerts := st.alerts ++
        [functionsCreateAlert (toString overdueCount ++ " Overdue Checklists")
          ("There are " ++ toString overdueCount ++
            " checklists that are past their due date.")
          .warning ["all"] ["admin", "supervisor"] alertId now] }
  else st

/-- `AlertService.getAlertById` (`src/src/services/alertService.ts` lines 37–41):
Firestore `doc(id).get()`, modelled as lookup by the `id` field. -/
def getAlertById (store : List Alert) (id : String) : Option Alert :=
  store.find? fun a => a.id == id

/-- `AlertService.acknowledgeAlert` (`src/src/services/alertService.ts` lines
92–104): load the alert (`null` → `none` when absent); if `userId` is already in
`acknowledgedBy`, return the alert without writing; otherwise push `userId`,
persist the new `acknowledgedBy` array, and return the updated alert. The result
pairs the store after the call with the returned alert. -/
def acknowledgeAlert (store : List Alert) (alertId userId : String) :
    Option (List Alert × Alert) :=
  match getAlertById store alertId with
  | none => none
  | some alert =>
    if userId ∈ alert.acknowledgedBy then some (store, alert)
    else
      let alert2 := { alert with acknowledgedBy := alert.acknowledgedBy ++ [userId] }
      some (store.map fun a => if a.id == alertId then alert2 else a, alert2)

/-- `AlertService.updateAlertStatus` (`src/src/services/alertService.ts` lines
109–115): check existence, write `{ status }`, and re-read the alert. -/
def updateAlertStatus (store : List Alert) (id : String) (status : AlertStatus) :
    Option (List Alert × Alert) :=
  match getAlertById store id with
  | none => none
  | some _ =>
    let store2 := store.map fun a => if a.id == id then { a with status := status } else a
    match getAlertById store2 id with
    | none => none
    | some a2 => some (store2, a2)

/-- The optional filters of `AlertService.getActiveAlerts`. `sectionName` embeds the
`section` filter (that word is reserved in Lean). -/
structure AlertFilters where
  priority : Option AlertPriority := none
  sectionName : Option String := none
  role : Option String := none
deriving Repr

/-- Insert into a list kept sorted by `createdAt` descending (stable). -/
def insertByCreatedAtDesc (a : Alert) : List Alert → List Alert
  | [] => [a]
  | b :: rest =>
    if b.createdAt < a.createdAt then a :: b :: rest else b :: insertByCreatedAtDesc a rest

/-- `orderBy('createdAt', 'desc')` of the base query. -/
def sortByCreatedAtDesc (l : List Alert) : List Alert :=
  l.foldr insertByCreatedAtDesc []

/-- `AlertService.getActiveAlerts` (`src/src/services/alertService.ts` lines 46–87):
store-level query `status == 'active'` (narrowed by `priority` when given, ordered by
`createdAt` descending), then the client-side section filter
(`targetSections.includes(section) || targetSections.includes('all')`), the
client-side role filter (same over `targetRoles`), and the expiry filter
(keep when `!expiresAt || expiresAt > now`). -/
def getActiveAlerts (store : List Alert) (filters : AlertFilters) (now : Int) :
    List Alert :=
  let q0 : List Alert := store.filter fun a => a.status == AlertStatus.active
  let q1 : List Alert := match filters.priority with
    | some p => q0.filter fun a => a.priority == p
    | none => q0
  let q2 : List Alert := sortByCreatedAtDesc q1
  let q3 : List Alert := match filters.sectionName with
    | some s => q2.filter fun a => a.targetSections.contains s || a.targetSections.contains "all"
    | none => q2
  let q4 : List Alert := match filters.role with
    | some r => q3.filter fun a => a.targetRoles.contains r || a.targetRoles.contains "all"
    | none => q3
  q4.filter fun a =>
    match a.expiresAt with
    | none => true
    | some e => decide (now < e)

/-- A sequence of `acknowledgeAlert` calls against the alerts store (each call a
pair of alert id and user id); a `NotFound` call leaves the store as it was. -/
def acknowledgeMany (store : List Alert) : List (String × String) → List Alert
  | [] => store
  | (aid, uid) :: rest =>
    match acknowledgeAlert store aid uid with
    | none => acknowledgeMany store rest
    | some (st2, _) => acknowledgeMany st2 rest

/-- `IncidentSeverity` from `src/src/types/index.ts`. -/
inductive IncidentSeverity
  | low
  | medium
  | high
  | critical
deriving DecidableEq, Repr

/-- `IncidentStatus` from `src/src/types/index.ts`. -/
inductive IncidentStatus
  | reported
  | investigating
  | resolved
  | closed
deriving DecidableEq, Repr

/-- `IncidentType` from `src/src/types/index.ts`. -/
inductive IncidentType
  | near_miss
  | injury
  | equipment_damage
  | environmental
  | fire
  | structural
  | other
deriving DecidableEq, Repr

/-- The fields of `Incident` read by the analytics aggregator. -/
structure Incident where
  severity : IncidentSeverity
  status : IncidentStatus
  type : IncidentType
  createdAt : Int
deriving DecidableEq, Repr

/-- The `bySeverity` accumulator of `getIncidentStats`, pre-seeded with every
severity at zero. -/
structure SeverityCounts where
  low : Nat
  medium : Nat
  high : Nat
  critical : Nat
deriving DecidableEq, Repr

/-- The `byStatus` accumulator of `getIncidentStats`. -/
structure StatusCounts where
  reported : Nat
  investigating : Nat
  resolved : Nat
  closed : Nat
deriving DecidableEq, Repr

/-- The `byType` accumulator of `getIncidentStats`. -/
structure TypeCounts where
  near_miss : Nat
  injury : Nat
  equipment_damage : Nat
  environmental : Nat
  fire : Nat
  structural : Nat
  other : Nat
deriving DecidableEq, Repr

/-- Result of `IncidentService.getIncidentStats`. -/
structure IncidentStats where
  total : Nat
  bySeverity : SeverityCounts
  byStatus : StatusCounts
  byType : TypeCounts
deriving DecidableEq, Repr

/-- `IncidentService.getIncidentStats` (the incident service bundled in the
`src/src/services` sources): scan the incidents with `createdAt` in
`[startDate, endDate]` and tally into pre-seeded accumulators. -/
def getIncidentStats (incidents : List Incident) (startDate endDate : Int) :
    IncidentStats :=
  let inWindow := incidents.filter fun i =>
    decide (startDate ≤ i.createdAt) && decide (i.createdAt ≤ endDate)
  { total := inWindow.length
    bySeverity :=
      { low := (inWindow.filter fun i => i.severity == .low).length
        medium := (inWindow.filter fun i => i.severity == .medium).length
        high := (inWindow.filter fun i => i.severity == .high).length
        critical := (inWindow.filter fun i => i.severity == .critical).length }
    byStatus :=
      { reported := (inWindow.filter fun i => i.status == .reported).length
        investigating := (inWindow.filter fun i => i.status == .investigating).length
        resolved := (inWindow.filter fun i => i.status == .resolved).length
        closed := (inWindow.filter fun i => i.status == .closed).length }
    byType :=
      { near_miss := (inWindow.filter fun i => i.type == .near_miss).length
        injury := (inWindow.filter fun i => i.type == .injury).length
        equipment_damage := (inWindow.filter fun i => i.type == .equipment_damage).length
        environmental := (inWindow.filter fun i => i.type == .environmental).length
        fire := (inWindow.filter fun i => i.type == .fire).length
        structural := (inWindow.filter fun i => i.type == .structural).length
        other := (inWindow.filter fun i => i.type == .other).length } }

/-- One step of the `byCategory` accumulation of `getChecklistStats`: create the
key lazily at zero, then increment `total` (and `completed` when the checklist is
completed). The association list keeps first-insertion order. -/
def bumpCategory : List (String × Nat × Nat) → String → Bool → List (String × Nat × Nat)
  | [], cat, comp => [(cat, 1, if comp then 1 else 0)]
  | (c, t, d) :: rest, cat, comp =>
    if c = cat then (c, t + 1, if comp then d + 1 else d) :: rest
    else (c, t, d) :: bumpCategory rest cat comp

/-- Result of `ChecklistService.getChecklistStats`. `completionRate` is the JS
number produced by `Math.round`, hence an integer. -/
structure ChecklistStats where
  total : Nat
  completed : Nat
  pending : Nat
  overdue : Nat
  completionRate : Int
  byCategory : List (String × Nat × Nat)
deriving DecidableEq, Repr

/-- `ChecklistService.getChecklistStats` (`src/unnamed/part_000` lines 187–236):
scan the checklists with `createdAt` in `[startDate, endDate]`; count `completed`,
`overdue`, and everything else as `pending`; build `byCategory` lazily; and set
`completionRate = Math.round((completed / total) * 100)` guarded to `0` when
`total == 0`. -/
def getChecklistStats (checklists : List Checklist) (startDate endDate : Int) :
    ChecklistStats :=
  let inWindow := checklists.filter fun c =>
    decide (startDate ≤ c.createdAt) && decide (c.createdAt ≤ endDate)
  let total := inWindow.length
  let completed := (inWindow.filter fun c => c.status == ChecklistStatus.completed).length
  let overdue := (inWindow.filter fun c => c.status == ChecklistStatus.overdue).length
  let pending := (inWindow.filter fun c =>
    !(c.status == ChecklistStatus.completed) && !(c.status == ChecklistStatus.overdue)).length
  let byCategory := inWindow.foldl
    (fun acc c => bumpCategory acc c.category (c.status == ChecklistStatus.completed)) []
  { total := total
    completed := completed
    pending := pending
    overdue := overdue
    completionRate :=
      if 0 < total then round (((completed : ℚ) / (total : ℚ)) * 100) else 0
    byCategory := byCategory }

/-- Result of the `GET /safety-score` handler: the reported `score` and the two
reported `factors`. All three go through `Math.round` or integer arithmetic in the
source, hence integers. -/
structure SafetyScoreResult where
  score : Int
  incidentImpact : Int
  checklistBonus : Int
deriving DecidableEq, Repr

/-- The `GET /safety-score` handler (`src/unnamed/part_001` lines 166–216): stats
over the trailing window, then
`score = 100 - 15*critical - 10*high - 5*medium - 2*low + (completionRate/100)*20`,
clamped to `[0, 100]` and rounded; `incidentImpact` is the negated deduction and
`checklistBonus = Math.round((completionRate/100)*20)`. -/
def safetyScore (incidents : List Incident) (checklists : List Checklist)
    (windowStart now : Int) : SafetyScoreResult :=
  let istats := getIncidentStats incidents windowStart now
  let cstats := getChecklistStats checklists windowStart now
  let sev := istats.bySeverity
  let score0 : ℚ := 100 - (sev.critical : ℚ) * 15 - (sev.high : ℚ) * 10
    - (sev.medium : ℚ) * 5 - (sev.low : ℚ) * 2
    + ((cstats.completionRate : ℚ) / 100) * 20
  let score1 : ℚ := max 0 (min 100 score0)
  { score := round score1
    incidentImpact := -((sev.critical : Int) * 15 + (sev.high : Int) * 10
      + (sev.medium : Int) * 5 + (sev.low : Int) * 2)
    checklistBonus := round (((cstats.completionRate : ℚ) / 100) * 20) }

/-- Two alerts agree on every field other than `acknowledgedBy`. -/
def sameExceptAck (a b : Alert) : Prop :=
  a.id = b.id ∧ a.title = b.title ∧ a.message = b.message ∧ a.priority = b.priority
    ∧ a.status = b.status ∧ a.targetSections = b.targetSections
    ∧ a.targetRoles = b.targetRoles ∧ a.createdBy = b.createdBy
    ∧ a.createdByName = b.createdByName ∧ a.createdAt = b.createdAt
    ∧ a.expiresAt = b.expiresAt

/-! ### Concrete fixtures used by witnesses and counterexamples -/

/-- A not-yet-completed checklist item. -/
def fixtureItem1 : ChecklistItem :=
  { id := "i1", description := "check ventilation", isCompleted := false,
    completedAt := none, completedBy := none, notes := none,
    requiresPhoto := false, photoUrl := none }

/-- A second not-yet-completed checklist item. -/
def fixtureItem2 : ChecklistItem :=
  { fixtureItem1 with id := "i2", description := "check pumps" }

/-- A pending two-item checklist due at time 100. -/
def fixtureChecklist : Checklist :=
  { id := "c1", title := "Daily Safety Inspection", description := "",
    category := "Safety", status := .pending, items := [fixtureItem1, fixtureItem2],
    assignedTo := "u1", dueDate := 100, completedAt := none, mineSection := "A",
    createdAt := 0, updatedAt := 0 }

/-- One update call: complete item `i1` at time 50. -/
def fixtureCall : UpdateCall :=
  { itemId := "i1", patch := { isCompleted := some true }, userId := "bob", now := 50 }

/-- `fixtureItem1` as completed by `"bob"` at time 50. -/
def fixtureItem1Done : ChecklistItem :=
  { fixtureItem1 with isCompleted := true, completedAt := some 50, completedBy := some "bob" }

/-- The checklist produced by `fixtureCall` on `fixtureChecklist`. -/
def fixtureResult : Checklist :=
  { fixtureChecklist with
    items := [fixtureItem1Done, fixtureItem2]
    status := .in_progress
    updatedAt := 50
    completedAt := none }

/-- An item carrying completion stamps from `"ann"` at time 5. -/
def stampedItem : ChecklistItem :=
  { fixtureItem1 with isCompleted := true, completedAt := some 5, completedBy := some "ann" }

/-- A checklist whose single item carries completion stamps, for exercising
patches that do not mention the completion flag. -/
def stampedChecklist : Checklist :=
  { fixtureChecklist with items := [stampedItem], status := .in_progress }

/-- An active alert targeted at every section and at supervisors only. -/
def demoAlert : Alert :=
  { id := "a1", title := "Safety Briefing Reminder",
    message := "All personnel must attend the weekly safety briefing.",
    priority := .info, status := .active, targetSections := ["all"],
    targetRoles := ["supervisor"], createdBy := "u9", createdByName := "Sue",
    acknowledgedBy := [], createdAt := 10, expiresAt := none }

/-- `demoAlert` after `"bob"` acknowledged it. -/
def demoAlertAcked : Alert :=
  { demoAlert with acknowledgedBy := ["bob"] }

/-- `demoAlert` after the empty actor id was acknowledged. -/
def demoAlertEmptyAcked : Alert :=
  { demoAlert with acknowledgedBy := [""] }

/-- A pending checklist created at time 10, never completed. -/
def statChecklist : Checklist :=
  { fixtureChecklist with id := "s1", createdAt := 10 }

/-- A completed checklist created at time 10. -/
def statChecklistDone : Checklist :=
  { fixtureChecklist with id := "s2", createdAt := 10, status := .completed }

/-- Three checklists created in-window, one completed: completion rate
`Math.round(100/3) = 33`. -/
def cexChecklists : List Checklist :=
  [statChecklistDone, statChecklist, { statChecklist with id := "s3" }]

/-- An incident of the given severity created at time 10. -/
def incidentOf (sev : IncidentSeverity) : Incident :=
  { severity := sev, status := .reported, type := .near_miss, createdAt := 10 }

/-- 1 critical, 2 high, 0 medium, 3 low incidents, all in-window. -/
def scenarioIncidents : List Incident :=
  [incidentOf .critical, incidentOf .high, incidentOf .high,
   incidentOf .low, incidentOf .low, incidentOf .low]

/-- Five in-window checklists, four completed: completion rate 80. -/
def scenarioChecklists : List Checklist :=
  [statChecklistDone, { statChecklistDone with id := "s2b" },
   { statChecklistDone with id := "s2c" }, { statChecklistDone with id := "s2d" },
   statChecklist]

/-- A pending checklist that is past due at time 200. -/
def overdueFixture : Checklist :=
  { fixtureChecklist with id := "o1", status := .pending, dueDate := 100 }

/-- The store state fed to the overdue-sweep witnesses. -/
def sweepFixture : SweepState :=
  { checklists := [overdueFixture, { overdueFixture with id := "o2", dueDate := 300 }]
    alerts := [] }

/-! ### Checklist lifecycle: helper lemmas -/

theorem updateFirstItem_eq_some {items : List ChecklistItem} {itemId : String}
    {f : ChecklistItem → ChecklistItem} {items' : List ChecklistItem}
    (h : updateFirstItem items itemId f = some items') :
    ∃ pre item post, items = pre ++ item :: post ∧ (∀ x ∈ pre, x.id ≠ itemId)
      ∧ item.id = itemId ∧ items' = pre ++ f item :: post := by
  induction items generalizing items' with
  | nil => simp [updateFirstItem] at h
  | cons i rest ih =>
    rw [updateFirstItem] at h
    by_cases hid : i.id = itemId
    · rw [if_pos hid] at h
      exact ⟨[], i, rest, by simp, by simp, hid, by simpa using h.symm⟩
    · rw [if_neg hid] at h
      obtain ⟨l, hl, rfl⟩ := Option.map_eq_some'.mp h
      obtain ⟨pre, item, post, h1, h2, h3, h4⟩ := ih hl
      refine ⟨i :: pre, item, post, by simp [h1], ?_, h3, by simp [h4]⟩
      intro x hx
      rcases List.mem_cons.mp hx with rfl | hx
      · exact hid
      · exact h2 x hx

theorem completedCount_le_length (items : List ChecklistItem) :
    completedCount items ≤ items.length :=
  List.length_filter_le _ _

theorem ifChain_eq_specStatus (cc n : Nat) (hle : cc ≤ n) (dueDate now : Int) :
    (if cc = n then ChecklistStatus.completed
     else if 0 < cc then ChecklistStatus.in_progress
     else if dueDate < now then ChecklistStatus.overdue
     else ChecklistStatus.pending)
    = specStatus cc n dueDate now := by
  unfold specStatus
  by_cases h1 : cc = n
  · simp [h1]
  · rw [if_neg h1, if_neg h1]
    by_cases h2 : 0 < cc
    · have hlt : cc < n := lt_of_le_of_ne hle h1
      simp [h2, hlt]
    · have hcc : cc = 0 := by omega
      by_cases h3 : dueDate < now <;> simp [h2, hcc, h3]

theorem updateChecklistItem_some_status {c : Checklist} {itemId : String}
    {p : ItemPatch} {u : String} {now : Int} {c' : Checklist}
    (h : updateChecklistItem c itemId p u now = some c') :
    c'.status = specStatus (completedCount c'.items) c'.items.length c'.dueDate now
      ∧ (c'.status = ChecklistStatus.completed → c'.completedAt = some now) := by
  unfold updateChecklistItem at h
  cases hf : updateFirstItem c.items itemId (fun item => mergeItemPatch item p u now) with
  | none => rw [hf] at h; exact absurd h (by simp)
  | some newItems =>
    rw [hf] at h
    simp only [Option.some.injEq] at h
    subst h
    refine ⟨?_, ?_⟩
    · exact ifChain_eq_specStatus (completedCount newItems) newItems.length
        (completedCount_le_length newItems) c.dueDate now
    · intro hs
      dsimp only at hs ⊢
      rw [if_pos hs]

/-! ### C1: stored status equals the pure derivation function -/

/-- C1. After every successful `updateChecklistItem` call — and hence after any
sequence of successful calls, the last of which runs at time `now = u.now` — the
stored status equals the pure function `specStatus` of
`(completedCount, n, dueDate, now)` from §4.1, with `completedAt` stamped when the
status is `completed`; the `in_progress` tie-break for partially-completed overdue
checklists is part of `specStatus`. -/
theorem checklist_status_never_diverges {c : Checklist} {us : List UpdateCall}
    {u : UpdateCall} {c' : Checklist} (h : runUpdates c (us ++ [u]) = some c') :
    c'.status = specStatus (completedCount c'.items) c'.items.length c'.dueDate u.now
      ∧ (c'.status = ChecklistStatus.completed → c'.completedAt = some u.now) := by
  induction us generalizing c with
  | nil =>
    rw [List.nil_append, runUpdates] at h
    cases hu : updateChecklistItem c u.itemId u.patch u.userId u.now with
    | none => rw [hu] at h; exact absurd h (by simp)
    | some c2 =>
      rw [hu] at h
      simp only [runUpdates, Option.some.injEq] at h
      subst h
      exact updateChecklistItem_some_status hu
  | cons v vs ih =>
    rw [List.cons_append, runUpdates] at h
    cases hv : updateChecklistItem c v.itemId v.patch v.userId v.now with
    | none => rw [hv] at h; exact absurd h (by simp)
    | some c2 =>
      rw [hv] at h
      exact ih h

/-- Witness for C1 at a concrete input: completing item `i1` of the two-item
`fixtureChecklist` at time 50 yields a checklist whose stored status is the
derived one (`in_progress`). -/
theorem checklist_status_never_diverges_witness :
    fixtureResult.status
        = specStatus (completedCount fixtureResult.items) fixtureResult.items.length
            fixtureResult.dueDate fixtureCall.now
      ∧ (fixtureResult.status = ChecklistStatus.completed →
          fixtureResult.completedAt = some fixtureCall.now) :=
  have h : runUpdates fixtureChecklist ([] ++ [fixtureCall]) = some fixtureResult := by
    decide
  checklist_status_never_diverges h

/-! ### C4: item merge and completion stamping -/

/-- C4 counterexample. A patch that does not mention the completion flag
(`notes` only, `isCompleted` absent) does NOT leave `completedAt`/`completedBy`
unchanged: on `stampedChecklist` (whose item carries `completedAt = 5`,
`completedBy = "ann"`) the notes-only patch clears both stamps, because the
source computes `completedAt: updates.isCompleted ? new Date() : undefined` and
an absent flag is falsy. -/
theorem notes_patch_clears_stamps_counterexample :
    ({ notes := some "checked" } : ItemPatch).isCompleted = none
      ∧ stampedChecklist.items.map (fun i => (i.completedAt, i.completedBy))
          = [(some 5, some "ann")]
      ∧ (updateChecklistItem stampedChecklist "i1" { notes := some "checked" } "bob" 20).map
          (fun r => r.items.map fun i => (i.completedAt, i.completedBy))
          = some [(none, none)] := by
  decide

/-- C4 (amended). `updateChecklistItem` merges the patch into the first item whose
id matches, leaving every other item unchanged; it stamps
`completedAt = now, completedBy = actor` exactly when the patch sets the completion
flag to `true`, and clears both fields in every other case — when the patch sets
the flag to `false` AND when the patch does not mention the flag at all (a
notes-only patch clears the stamps rather than leaving them unchanged). -/
theorem updateChecklistItem_merges_patch {c : Checklist} {itemId : String}
    {p : ItemPatch} {u : String} {now : Int} {c' : Checklist}
    (h : updateChecklistItem c itemId p u now = some c') :
    ∃ pre item post merged,
      c.items = pre ++ item :: post ∧ (∀ x ∈ pre, x.id ≠ itemId) ∧ item.id = itemId
      ∧ c'.items = pre ++ merged :: post
      ∧ merged.id = item.id
      ∧ merged.requiresPhoto = item.requiresPhoto
      ∧ (∀ b, p.isCompleted = some b → merged.isCompleted = b)
      ∧ (p.isCompleted = none → merged.isCompleted = item.isCompleted)
      ∧ (∀ v, p.notes = some v → merged.notes = some v)
      ∧ (p.notes = none → merged.notes = item.notes)
      ∧ (∀ v, p.description = some v → merged.description = v)
      ∧ (p.description = none → merged.description = item.description)
      ∧ (∀ v, p.photoUrl = some v → merged.photoUrl = some v)
      ∧ (p.photoUrl = none → merged.photoUrl = item.photoUrl)
      ∧ (p.isCompleted = some true →
          merged.completedAt = some now ∧ merged.completedBy = some u)
      ∧ (p.isCompleted ≠ some true →
          merged.completedAt = none ∧ merged.completedBy = none) := by
  unfold updateChecklistItem at h
  cases hf : updateFirstItem c.items itemId (fun item => mergeItemPatch item p u now) with
  | none => rw [hf] at h; exact absurd h (by simp)
  | some newItems =>
    rw [hf] at h
    simp only [Option.some.injEq] at h
    subst h
    obtain ⟨pre, item, post, h1, h2, h3, h4⟩ := updateFirstItem_eq_some hf
    refine ⟨pre, item, post, mergeItemPatch item p u now, h1, h2, h3, h4, rfl, rfl,
      ?_, ?_, ?_, ?_, ?_, ?_, ?_, ?_, ?_, ?_⟩
    · intro b hb; simp [mergeItemPatch, hb]
    · intro hb; simp [mergeItemPatch, hb]
    · intro v hv; simp [mergeItemPatch, hv]
    · intro hv; simp [mergeItemPatch, hv]
    · intro v hv; simp [mergeItemPatch, hv]
    · intro hv; simp [mergeItemPatch, hv]
    · intro v hv; simp [mergeItemPatch, hv]
    · intro hv; simp [mergeItemPatch, hv]
    · intro hb; simp [mergeItemPatch, hb]
    · intro hb; simp [mergeItemPatch, hb]

/-- Witness for C4 at a concrete input: completing item `i1` of
`fixtureChecklist` at time 50 stamps the merged item. -/
theorem updateChecklistItem_merges_patch_witness :
    ∃ pre item post merged,
      fixtureChecklist.items = pre ++ item :: post ∧ (∀ x ∈ pre, x.id ≠ "i1")
      ∧ item.id = "i1"
      ∧ fixtureResult.items = pre ++ merged :: post
      ∧ merged.id = item.id
      ∧ merged.requiresPhoto = item.requiresPhoto
      ∧ (∀ b, fixtureCall.patch.isCompleted = some b → merged.isCompleted = b)
      ∧ (fixtureCall.patch.isCompleted = none → merged.isCompleted = item.isCompleted)
      ∧ (∀ v, fixtureCall.patch.notes = some v → merged.notes = some v)
      ∧ (fixtureCall.patch.notes = none → merged.notes = item.notes)
      ∧ (∀ v, fixtureCall.patch.description = some v → merged.description = v)
      ∧ (fixtureCall.patch.description = none → merged.description = item.description)
      ∧ (∀ v, fixtureCall.patch.photoUrl = some v → merged.photoUrl = some v)
      ∧ (fixtureCall.patch.photoUrl = none → merged.photoUrl = item.photoUrl)
      ∧ (fixtureCall.patch.isCompleted = some true →
          merged.completedAt = some 50 ∧ merged.completedBy = some "bob")
      ∧ (fixtureCall.patch.isCompleted ≠ some true →
          merged.completedAt = none ∧ merged.completedBy = none) :=
  have h : updateChecklistItem fixtureChecklist "i1" fixtureCall.patch "bob" 50
      = some fixtureResult := by decide
  updateChecklistItem_merges_patch h

/-! ### Overdue sweep: helper lemmas -/

theorem isOverdueCandidate_iff (now : Int) (c : Checklist) :
    isOverdueCandidate now c = true ↔
      (c.status = ChecklistStatus.pending ∨ c.status = ChecklistStatus.in_progress)
        ∧ c.dueDate < now := by
  simp [isOverdueCandidate]

theorem sweep_result_not_candidate (now : Int) (aid : String) (st : SweepState) :
    ∀ c ∈ (checkOverdueChecklists now aid st).checklists,
      isOverdueCandidate now c = false := by
  intro c hc
  unfold checkOverdueChecklists at hc
  by_cases hm : 0 < (st.checklists.filter (isOverdueCandidate now)).length
  · rw [if_pos hm] at hc
    simp only [List.mem_map] at hc
    obtain ⟨x, _, rfl⟩ := hc
    by_cases hx : isOverdueCandidate now x = true
    · rw [if_pos hx]
      simp [isOverdueCandidate]
    · rw [if_neg hx]
      exact Bool.eq_false_iff.mpr hx
  · rw [if_neg hm] at hc
    have hnil : st.checklists.filter (isOverdueCandidate now) = [] :=
      List.eq_nil_of_length_eq_zero (by omega)
    have := List.filter_eq_nil_iff.mp hnil c hc
    exact Bool.eq_false_iff.mpr this

/-! ### C2: what one sweep run does -/

/-- C2. One run of the overdue sweep at time `now`: position by position, exactly
the checklists with status in `{pending, in_progress}` and `dueDate < now` have
their status overwritten to `overdue` (no other field changes, every other
checklist is untouched); when the matched count is positive exactly one alert is
appended — priority `warning`, title and message naming the count,
`targetSections = ["all"]`, `targetRoles = ["admin", "supervisor"]` — and when the
matched count is zero the alerts collection is unchanged. -/
theorem overdue_sweep_effect (now : Int) (aid : String) (st : SweepState) :
    (∀ (i : Nat) (c : Checklist), st.checklists[i]? = some c →
      (((c.status = ChecklistStatus.pending ∨ c.status = ChecklistStatus.in_progress)
          ∧ c.dueDate < now) →
        (checkOverdueChecklists now aid st).checklists[i]?
          = some { c with status := ChecklistStatus.overdue })
      ∧ (¬((c.status = ChecklistStatus.pending ∨ c.status = ChecklistStatus.in_progress)
          ∧ c.dueDate < now) →
        (checkOverdueChecklists now aid st).checklists[i]? = some c))
    ∧ (0 < (st.checklists.filter (isOverdueCandidate now)).length →
        ∃ a, (checkOverdueChecklists now aid st).alerts = st.alerts ++ [a]
          ∧ a.priority = AlertPriority.warning
          ∧ a.title = toString (st.checklists.filter (isOverdueCandidate now)).length
              ++ " Overdue Checklists"
          ∧ a.message = "There are "
              ++ toString (st.checklists.filter (isOverdueCandidate now)).length
              ++ " checklists that are past their due date."
          ∧ a.targetSections = ["all"] ∧ a.targetRoles = ["admin", "supervisor"]
          ∧ a.status = AlertStatus.active)
    ∧ ((st.checklists.filter (isOverdueCandidate now)).length = 0 →
        (checkOverdueChecklists now aid st).alerts = st.alerts) := by
  unfold checkOverdueChecklists
  by_cases hm : 0 < (st.checklists.filter (isOverdueCandidate now)).length
  · rw [if_pos hm]
    dsimp only
    refine ⟨?_, ?_, ?_⟩
    · intro i c hi
      constructor
      · intro hc
        rw [List.getElem?_map, hi, Option.map_some',
          if_pos ((isOverdueCandidate_iff now c).mpr hc)]
      · intro hc
        rw [List.getElem?_map, hi, Option.map_some',
          if_neg (fun hb => hc ((isOverdueCandidate_iff now c).mp hb))]
    · intro _
      exact ⟨_, rfl, rfl, rfl, rfl, rfl, rfl, rfl⟩
    · intro h0; omega
  · rw [if_neg hm]
    have hnil : st.checklists.filter (isOverdueCandidate now) = [] :=
      List.eq_nil_of_length_eq_zero (by omega)
    refine ⟨?_, ?_, ?_⟩
    · intro i c hi
      constructor
      · intro hc
        have hmem : c ∈ st.checklists := List.getElem?_mem hi
        have := List.filter_eq_nil_iff.mp hnil c hmem
        exact absurd ((isOverdueCandidate_iff now c).mpr hc) this
      · intro _; exact hi
    · intro h0; omega
    · intro _; rfl

/-- Witness for C2 at a concrete input: `sweepFixture` holds one past-due pending
checklist (`o1`, due 100) and one not-yet-due (`o2`, due 300); at `now = 200` the
sweep flips `o1` to `overdue`. -/
theorem overdue_sweep_effect_witness :
    (checkOverdueChecklists 200 "alert1" sweepFixture).checklists[0]?
      = some { overdueFixture with status := ChecklistStatus.overdue } :=
  ((overdue_sweep_effect 200 "alert1" sweepFixture).1 0 overdueFixture (by decide)).1
    (by decide)

/-! ### C6: the sweep is idempotent -/

/-- C6. Re-running the sweep with the same `now` and no intervening updates is a
no-op: after one run no checklist matches the query any more (already-overdue
checklists are excluded by the status filter), so the second run updates zero
checklists, emits no alert, and the state after two runs equals the state after
one — whatever alert-document ids the two runs would draw. -/
theorem overdue_sweep_idempotent (now : Int) (aid1 aid2 : String) (st : SweepState) :
    ((checkOverdueChecklists now aid1 st).checklists.filter (isOverdueCandidate now)).length = 0
    ∧ checkOverdueChecklists now aid2 (checkOverdueChecklists now aid1 st)
        = checkOverdueChecklists now aid1 st := by
  have hempty : (checkOverdueChecklists now aid1 st).checklists.filter
      (isOverdueCandidate now) = [] := by
    refine List.filter_eq_nil_iff.mpr ?_
    intro c hc
    simp [sweep_result_not_candidate now aid1 st c hc]
  refine ⟨by rw [hempty]; rfl, ?_⟩
  conv_lhs => rw [checkOverdueChecklists]
  rw [hempty]
  simp

/-! ### Alert targeting: helper lemmas -/

theorem mem_insertByCreatedAtDesc {a b : Alert} {l : List Alert} :
    a ∈ insertByCreatedAtDesc b l ↔ a = b ∨ a ∈ l := by
  induction l with
  | nil => simp [insertByCreatedAtDesc]
  | cons x rest ih =>
    rw [insertByCreatedAtDesc]
    by_cases hx : x.createdAt < b.createdAt
    · rw [if_pos hx]; simp
    · rw [if_neg hx]
      simp only [List.mem_cons, ih]
      tauto

theorem mem_sortByCreatedAtDesc {a : Alert} {l : List Alert} :
    a ∈ sortByCreatedAtDesc l ↔ a ∈ l := by
  induction l with
  | nil => simp [sortByCreatedAtDesc]
  | cons x rest ih =>
    show a ∈ insertByCreatedAtDesc x (sortByCreatedAtDesc rest) ↔ _
    rw [mem_insertByCreatedAtDesc, ih]
    simp [eq_comm]

theorem expiry_keep_iff (a : Alert) (now : Int) :
    ((match a.expiresAt with
      | none => true
      | some e => decide (now < e)) = true)
      ↔ (∀ e, a.expiresAt = some e → now < e) := by
  cases h : a.expiresAt <;> simp [h]

theorem target_match_iff (l : List String) (s : String) :
    (l.contains s || l.contains "all") = true ↔ (s ∈ l ∨ "all" ∈ l) := by
  simp [List.contains]

theorem mem_getActiveAlerts_iff {store : List Alert} {filters : AlertFilters}
    {now : Int} {a : Alert} :
    a ∈ getActiveAlerts store filters now ↔
      a ∈ store ∧ a.status = AlertStatus.active
      ∧ (∀ p, filters.priority = some p → a.priority = p)
      ∧ (∀ s, filters.sectionName = some s → s ∈ a.targetSections ∨ "all" ∈ a.targetSections)
      ∧ (∀ r, filters.role = some r → r ∈ a.targetRoles ∨ "all" ∈ a.targetRoles)
      ∧ (∀ e, a.expiresAt = some e → now < e) := by
  unfold getActiveAlerts
  cases hp : filters.priority <;> cases hs : filters.sectionName <;>
    cases hr : filters.role <;>
      simp [List.mem_filter, mem_sortByCreatedAtDesc, expiry_keep_iff,
        target_match_iff, and_assoc] <;> tauto

/-! ### C7: listActive returns exactly the matching unexpired active alerts -/

/-- C7. `getActiveAlerts` returns exactly the stored alerts with status `active`
that pass the requested priority filter, match the requested section
(`section ∈ targetSections` or `"all" ∈ targetSections`), match the requested role
(same rule over `targetRoles`), and are not expired (`expiresAt` absent or
`> now`); in particular `demoAlert` (`targetSections = ["all"]`,
`targetRoles = ["supervisor"]`) is listed under `section = "B"`,
`role = "supervisor"` and not listed under `role = "operator"`. -/
theorem getActiveAlerts_exactly_matching :
    (∀ (store : List Alert) (filters : AlertFilters) (now : Int) (a : Alert),
      a ∈ getActiveAlerts store filters now ↔
        a ∈ store ∧ a.status = AlertStatus.active
        ∧ (∀ p, filters.priority = some p → a.priority = p)
        ∧ (∀ s, filters.sectionName = some s →
            s ∈ a.targetSections ∨ "all" ∈ a.targetSections)
        ∧ (∀ r, filters.role = some r → r ∈ a.targetRoles ∨ "all" ∈ a.targetRoles)
        ∧ (∀ e, a.expiresAt = some e → now < e))
    ∧ demoAlert ∈ getActiveAlerts [demoAlert]
        { sectionName := some "B", role := some "supervisor" } 0
    ∧ demoAlert ∉ getActiveAlerts [demoAlert] { role := some "operator" } 0 := by
  refine ⟨fun store filters now a => mem_getActiveAlerts_iff, by decide, by decide⟩

/-- Witness for C7: the membership characterization applied at a concrete store,
filter and alert. -/
theorem getActiveAlerts_exactly_matching_witness :
    demoAlert ∈ getActiveAlerts [demoAlert]
      { priority := some AlertPriority.info, sectionName := some "B",
        role := some "supervisor" } 7 :=
  (getActiveAlerts_exactly_matching.1 [demoAlert]
    { priority := some AlertPriority.info, sectionName := some "B",
      role := some "supervisor" } 7 demoAlert).mpr
    ⟨by decide, by decide, fun p hp => by cases hp; decide,
      fun s hs => by cases hs; decide, fun r hr => by cases hr; decide,
      fun e he => by cases he⟩

/-! ### Acknowledgment: helper lemmas -/

theorem getAlertById_mem {store : List Alert} {aid : String} {a : Alert}
    (h : getAlertById store aid = some a) : a ∈ store ∧ a.id = aid := by
  unfold getAlertById at h
  exact ⟨List.mem_of_find?_eq_some h, by simpa using List.find?_some h⟩

theorem getAlertById_map_ite {store : List Alert} {aid : String} {alert b : Alert}
    (h : getAlertById store aid = some alert) (hb : b.id = aid) :
    getAlertById (store.map fun a => if a.id == aid then b else a) aid = some b := by
  unfold getAlertById at h ⊢
  induction store with
  | nil => simp at h
  | cons x rest ih =>
    rw [List.map_cons]
    by_cases hx : (x.id == aid) = true
    · rw [if_pos hx]
      rw [List.find?_cons_of_pos (p := fun (z : Alert) => z.id == aid) _ (by simp [hb])]
    · rw [if_neg hx]
      rw [List.find?_cons_of_neg (p := fun (z : Alert) => z.id == aid) _ hx] at h
      rw [List.find?_cons_of_neg (p := fun (z : Alert) => z.id == aid) _ hx]
      exact ih h

theorem ack_preserves_nodup {store st' : List Alert} {aid uid : String} {a' : Alert}
    (h : acknowledgeAlert store aid uid = some (st', a'))
    (hn : ∀ a ∈ store, a.acknowledgedBy.Nodup) :
    ∀ a ∈ st', a.acknowledgedBy.Nodup := by
  cases hg : getAlertById store aid with
  | none => simp [acknowledgeAlert, hg] at h
  | some alert =>
    by_cases hm : uid ∈ alert.acknowledgedBy
    · simp only [acknowledgeAlert, hg, if_pos hm, Option.some.injEq, Prod.mk.injEq] at h
      obtain ⟨hst, _⟩ := h
      subst hst
      exact hn
    · simp only [acknowledgeAlert, hg, if_neg hm, Option.some.injEq, Prod.mk.injEq] at h
      obtain ⟨hst, _⟩ := h
      subst hst
      intro a hamem
      rw [List.mem_map] at hamem
      obtain ⟨x, hx, rfl⟩ := hamem
      by_cases hxid : (x.id == aid) = true
      · rw [if_pos hxid]
        have halert := hn alert (getAlertById_mem hg).1
        simp [List.nodup_append, halert, hm]
      · rw [if_neg hxid]
        exact hn x hx

theorem acknowledgeMany_nodup {store : List Alert} {calls : List (String × String)}
    (hn : ∀ a ∈ store, a.acknowledgedBy.Nodup) :
    ∀ a ∈ acknowledgeMany store calls, a.acknowledgedBy.Nodup := by
  induction calls generalizing store with
  | nil => simpa [acknowledgeMany] using hn
  | cons c rest ih =>
    obtain ⟨aid, uid⟩ := c
    rw [acknowledgeMany]
    cases h : acknowledgeAlert store aid uid with
    | none => exact ih hn
    | some p =>
      obtain ⟨st2, a2⟩ := p
      exact ih (ack_preserves_nodup h hn)

/-! ### C5: acknowledgment is idempotent and at-most-once -/

/-- C5. `acknowledgeAlert` fails with `NotFound` (`none`) exactly on a missing
alert; on a present alert it is a no-op when the actor is already in
`acknowledgedBy` and otherwise appends the actor and persists, returning the
(possibly unchanged) alert; acknowledging twice with the same actor returns the
same store and alert as acknowledging once; and starting from duplicate-free
`acknowledgedBy` sets, after any sequence of acknowledgments every actor id
appears at most once in every alert's `acknowledgedBy`. -/
theorem acknowledge_idempotent :
    (∀ (store : List Alert) (aid uid : String),
      getAlertById store aid = none → acknowledgeAlert store aid uid = none)
    ∧ (∀ (store : List Alert) (aid uid : String) (alert : Alert),
      getAlertById store aid = some alert →
        (uid ∈ alert.acknowledgedBy → acknowledgeAlert store aid uid = some (store, alert))
        ∧ (uid ∉ alert.acknowledgedBy → ∃ st',
            acknowledgeAlert store aid uid
              = some (st', { alert with acknowledgedBy := alert.acknowledgedBy ++ [uid] })))
    ∧ (∀ (store st' : List Alert) (aid uid : String) (a' : Alert),
      acknowledgeAlert store aid uid = some (st', a') →
        acknowledgeAlert st' aid uid = some (st', a'))
    ∧ (∀ (store : List Alert) (calls : List (String × String)),
      (∀ a ∈ store, a.acknowledgedBy.Nodup) →
        ∀ a ∈ acknowledgeMany store calls, ∀ u, a.acknowledgedBy.count u ≤ 1) := by
  refine ⟨?_, ?_, ?_, ?_⟩
  · intro store aid uid h
    simp [acknowledgeAlert, h]
  · intro store aid uid alert h
    constructor
    · intro hm
      simp [acknowledgeAlert, h, hm]
    · intro hm
      refine ⟨store.map fun a => if a.id == aid
        then { alert with acknowledgedBy := alert.acknowledgedBy ++ [uid] } else a, ?_⟩
      simp [acknowledgeAlert, h, hm]
  · intro store st' aid uid a' h
    cases hg : getAlertById store aid with
    | none => simp [acknowledgeAlert, hg] at h
    | some alert =>
      by_cases hm : uid ∈ alert.acknowledgedBy
      · simp only [acknowledgeAlert, hg, if_pos hm, Option.some.injEq, Prod.mk.injEq] at h
        obtain ⟨hst, ha⟩ := h
        subst hst
        subst ha
        simp [acknowledgeAlert, hg, hm]
      · simp only [acknowledgeAlert, hg, if_neg hm, Option.some.injEq, Prod.mk.injEq] at h
        obtain ⟨hst, ha⟩ := h
        subst hst
        subst ha
        have hg2 : getAlertById
            (store.map fun a => if a.id == aid
              then { alert with acknowledgedBy := alert.acknowledgedBy ++ [uid] } else a) aid
            = some { alert with acknowledgedBy := alert.acknowledgedBy ++ [uid] } :=
          getAlertById_map_ite hg (getAlertById_mem hg).2
        unfold acknowledgeAlert
        rw [hg2]
        simp
  · intro store calls hn a ha u
    exact List.nodup_iff_count_le_one.mp (acknowledgeMany_nodup hn a ha) u

/-- Witness for C5: acknowledging `demoAlert` as `"bob"` produces `demoAlertAcked`,
and acknowledging again returns the same store and alert. -/
theorem acknowledge_idempotent_witness :
    acknowledgeAlert [demoAlertAcked] "a1" "bob" = some ([demoAlertAcked], demoAlertAcked) :=
  acknowledge_idempotent.2.2.1 [demoAlert] [demoAlertAcked] "a1" "bob" demoAlertAcked
    (by decide)

/-! ### C9: acknowledging with an empty actor id -/

/-- C9 counterexample. Acknowledging with the empty actor id does NOT fail with a
typed `InvalidState` error and does NOT leave `acknowledgedBy` unchanged: on
`demoAlert` (no acknowledgments) it succeeds and appends `""`. -/
theorem acknowledge_empty_actor_counterexample :
    acknowledgeAlert [demoAlert] "a1" ""
        = some ([demoAlertEmptyAcked], demoAlertEmptyAcked)
      ∧ demoAlert.acknowledgedBy = []
      ∧ demoAlertEmptyAcked.acknowledgedBy = [""] := by
  decide

/-- C9 (amended). `acknowledgeAlert` performs no validation of the actor id: its
only failure is `NotFound` (`none` exactly when the alert is absent), and an
empty actor id is treated like any other id — when it is not yet present it is
appended to `acknowledgedBy` and persisted. -/
theorem acknowledge_empty_actor_no_validation :
    (∀ (store : List Alert) (aid uid : String),
      acknowledgeAlert store aid uid = none ↔ getAlertById store aid = none)
    ∧ (∀ (store : List Alert) (aid : String) (alert : Alert),
      getAlertById store aid = some alert → "" ∉ alert.acknowledgedBy →
        ∃ st', acknowledgeAlert store aid ""
          = some (st', { alert with acknowledgedBy := alert.acknowledgedBy ++ [""] })) := by
  constructor
  · intro store aid uid
    cases hg : getAlertById store aid with
    | none => simp [acknowledgeAlert, hg]
    | some alert =>
      by_cases hm : uid ∈ alert.acknowledgedBy
      · simp [acknowledgeAlert, hg, hm]
      · simp [acknowledgeAlert, hg, hm]
  · intro store aid alert h hm
    refine ⟨store.map fun a => if a.id == aid
      then { alert with acknowledgedBy := alert.acknowledgedBy ++ [""] } else a, ?_⟩
    simp [acknowledgeAlert, h, hm]

/-- Witness for C9: on `demoAlert`, acknowledging with `""` appends the empty id. -/
theorem acknowledge_empty_actor_no_validation_witness :
    ∃ st', acknowledgeAlert [demoAlert] "a1" ""
      = some (st', { demoAlert with acknowledgedBy := demoAlert.acknowledgedBy ++ [""] }) :=
  acknowledge_empty_actor_no_validation.2 [demoAlert] "a1" demoAlert (by decide) (by decide)

/-! ### C10: acknowledgment modifies only acknowledgedBy -/

theorem sameExceptAck_refl (a : Alert) : sameExceptAck a a := by
  unfold sameExceptAck
  exact ⟨rfl, rfl, rfl, rfl, rfl, rfl, rfl, rfl, rfl, rfl, rfl⟩

theorem forall₂_map_self {r : Alert → Alert → Prop} {l : List Alert}
    (f : Alert → Alert) (h : ∀ a ∈ l, r a (f a)) : List.Forall₂ r l (l.map f) := by
  induction l with
  | nil => simp
  | cons x rest ih =>
    rw [List.map_cons]
    exact List.Forall₂.cons (h x (by simp)) (ih (fun a ha => h a (by simp [ha])))

/-- C10. In a store with unique document ids, `acknowledgeAlert` changes only the
`acknowledgedBy` field: every stored alert keeps every other field (pointwise
`sameExceptAck`), the returned alert agrees with the loaded one on every field
other than `acknowledgedBy` — in particular its `status` is untouched, so an alert
stays `active` no matter how many actors acknowledge it and still appears in
`getActiveAlerts` afterwards; the `status` field is only written by the separate
`updateAlertStatus` operation, which sets exactly the requested status. -/
theorem acknowledge_only_changes_acknowledgedBy :
    (∀ (store st' : List Alert) (aid uid : String) (a' : Alert),
      (store.map fun a => a.id).Nodup →
      acknowledgeAlert store aid uid = some (st', a') →
        List.Forall₂ sameExceptAck store st'
        ∧ (∀ alert, getAlertById store aid = some alert →
            sameExceptAck alert a' ∧ a'.status = alert.status)
        ∧ (∀ (filters : AlertFilters) (now : Int) (alert : Alert),
            getAlertById store aid = some alert →
            alert ∈ getActiveAlerts store filters now →
            a' ∈ getActiveAlerts st' filters now))
    ∧ (∀ (store : List Alert) (aid : String) (status : AlertStatus)
        (st2 : List Alert) (a2 : Alert),
      updateAlertStatus store aid status = some (st2, a2) → a2.status = status) := by
  constructor
  · intro store st' aid uid a' hids h
    cases hg : getAlertById store aid with
    | none => simp [acknowledgeAlert, hg] at h
    | some alert =>
      have hmem := (getAlertById_mem hg).1
      have hid := (getAlertById_mem hg).2
      by_cases hm : uid ∈ alert.acknowledgedBy
      · simp only [acknowledgeAlert, hg, if_pos hm, Option.some.injEq, Prod.mk.injEq] at h
        obtain ⟨hst, ha⟩ := h
        subst hst
        subst ha
        refine ⟨List.forall₂_same.mpr (fun a _ => sameExceptAck_refl a), ?_, ?_⟩
        · intro alert0 h0
          rw [Option.some.injEq] at h0
          subst h0
          exact ⟨sameExceptAck_refl _, rfl⟩
        · intro filters now alert0 h0 hmem0
          rw [Option.some.injEq] at h0
          subst h0
          exact hmem0
      · simp only [acknowledgeAlert, hg, if_neg hm, Option.some.injEq, Prod.mk.injEq] at h
        obtain ⟨hst, ha⟩ := h
        subst hst
        subst ha
        have huniq : ∀ a ∈ store, a.id = aid → a = alert := by
          intro a ha haid
          exact List.inj_on_of_nodup_map hids ha hmem (haid.trans hid.symm)
        refine ⟨?_, ?_, ?_⟩
        · apply forall₂_map_self
          intro a ha
          by_cases haid : (a.id == aid) = true
          · rw [if_pos haid]
            have haeq : a = alert := huniq a ha (by simpa using haid)
            subst haeq
            exact ⟨rfl, rfl, rfl, rfl, rfl, rfl, rfl, rfl, rfl, rfl, rfl⟩
          · rw [if_neg haid]
            exact sameExceptAck_refl a
        · intro alert0 h0
          rw [Option.some.injEq] at h0
          subst h0
          exact ⟨⟨rfl, rfl, rfl, rfl, rfl, rfl, rfl, rfl, rfl, rfl, rfl⟩, rfl⟩
        · intro filters now alert0 h0 hmem0
          rw [Option.some.injEq] at h0
          subst h0
          rw [mem_getActiveAlerts_iff] at hmem0 ⊢
          obtain ⟨_, h2, h3, h4, h5, h6⟩ := hmem0
          refine ⟨?_, h2, h3, h4, h5, h6⟩
          have himg : (if (alert.id == aid) = true
              then { alert with acknowledgedBy := alert.acknowledgedBy ++ [uid] }
              else alert)
              = { alert with acknowledgedBy := alert.acknowledgedBy ++ [uid] } := by
            rw [if_pos (by simp [hid])]
          have hin := List.mem_map_of_mem
            (fun a => if (a.id == aid) = true
              then { alert with acknowledgedBy := alert.acknowledgedBy ++ [uid] } else a) hmem
          dsimp only at hin
          rwa [himg] at hin
  · intro store aid status st2 a2 h
    simp only [updateAlertStatus] at h
    cases hg : getAlertById store aid with
    | none => rw [hg] at h; simp at h
    | some a0 =>
      rw [hg] at h
      cases hg2 : getAlertById
          (store.map fun a => if a.id == aid then { a with status := status } else a) aid with
      | none => rw [hg2] at h; simp at h
      | some a3 =>
        rw [hg2] at h
        simp only [Option.some.injEq, Prod.mk.injEq] at h
        obtain ⟨hst, ha⟩ := h
        subst ha
        have hid3 := (getAlertById_mem hg2).2
        have hmem3 := (getAlertById_mem hg2).1
        rw [List.mem_map] at hmem3
        obtain ⟨x, hx, hfx⟩ := hmem3
        by_cases hxid : (x.id == aid) = true
        · rw [if_pos hxid] at hfx
          rw [← hfx]
        · rw [if_neg hxid] at hfx
          rw [← hfx] at hid3
          exact absurd (by simp [hid3]) hxid

/-- Witness for C10: `"bob"` acknowledging `demoAlert` leaves it listed for
supervisors. -/
theorem acknowledge_only_changes_acknowledgedBy_witness :
    demoAlertAcked ∈ getActiveAlerts [demoAlertAcked] { role := some "supervisor" } 0 :=
  ((acknowledge_only_changes_acknowledgedBy.1 [demoAlert] [demoAlertAcked] "a1" "bob"
    demoAlertAcked (by decide) (by decide)).2.2 { role := some "supervisor" } 0 demoAlert
    (by decide) (by decide))

/-! ### Analytics: helper lemmas -/

theorem completionRate_eq (cls : List Checklist) (s e : Int) :
    (getChecklistStats cls s e).completionRate
      = if 0 < (getChecklistStats cls s e).total
        then round ((((getChecklistStats cls s e).completed : ℚ)
            / ((getChecklistStats cls s e).total : ℚ)) * 100)
        else 0 := by
  simp only [getChecklistStats]

/-! ### C8: completion rate is division-guarded -/

/-- C8. `getChecklistStats` reports
`completionRate = round(100 * completed / total)` whenever `total > 0`, and
reports `0` when `total = 0`: the division is reached only under the `total > 0`
guard and the function is total — no division-by-zero fault for any input. -/
theorem checklistStats_completionRate_guarded :
    ∀ (checklists : List Checklist) (startDate endDate : Int),
      (0 < (getChecklistStats checklists startDate endDate).total →
        (getChecklistStats checklists startDate endDate).completionRate
          = round ((100 * ((getChecklistStats checklists startDate endDate).completed : ℚ))
              / ((getChecklistStats checklists startDate endDate).total : ℚ)))
      ∧ ((getChecklistStats checklists startDate endDate).total = 0 →
          (getChecklistStats checklists startDate endDate).completionRate = 0) := by
  intro checklists s e
  constructor
  · intro hpos
    rw [completionRate_eq, if_pos hpos]
    congr 1
    ring
  · intro h0
    rw [completionRate_eq, if_neg (by omega)]

/-- Witness for C8: the empty window reports `completionRate = 0`. -/
theorem checklistStats_completionRate_guarded_witness :
    (getChecklistStats [] 0 0).completionRate = 0 :=
  (checklistStats_completionRate_guarded [] 0 0).2 (by decide)

/-! ### C3: the safety-score formula -/

/-- C3 counterexample. The reported `checklistBonus` is NOT the unrounded
component: over `cexChecklists` (3 in-window checklists, 1 completed, so
`completionRate = 33`) the raw bonus is `20 · (33/100) = 6.6`, but the handler
reports `Math.round(6.6) = 7`. -/
theorem safetyScore_unrounded_bonus_counterexample :
    (getChecklistStats cexChecklists 0 100).completionRate = 33
    ∧ (safetyScore [] cexChecklists 0 100).checklistBonus = 7
    ∧ ((7 : ℚ) ≠ 20 * ((33 : ℚ) / 100)) := by
  have htot : (getChecklistStats cexChecklists 0 100).total = 3 := by decide
  have hcomp : (getChecklistStats cexChecklists 0 100).completed = 1 := by decide
  have hrate : (getChecklistStats cexChecklists 0 100).completionRate = 33 := by
    rw [completionRate_eq, if_pos (by omega), htot, hcomp]
    push_cast
    norm_num [round_eq, Int.floor_eq_iff]
  refine ⟨hrate, ?_, by norm_num⟩
  show round (((getChecklistStats cexChecklists 0 100).completionRate : ℚ) / 100 * 20) = 7
  rw [hrate]
  push_cast
  norm_num [round_eq, Int.floor_eq_iff]

/-- C3 (amended). The reported score is
`round(clamp(100 − (15·critical + 10·high + 5·medium + 2·low) + 20·(completionRate/100), 0, 100))`
with the severity counts from `getIncidentStats` and `completionRate` from
`getChecklistStats` over the window, so it always lies in `[0, 100]`;
`incidentImpact` is reported exactly (an integer), but `checklistBonus` is
reported ROUNDED — `Math.round(20 · completionRate/100)` — not as the raw
component. Scenario: 1 critical, 2 high, 0 medium, 3 low incidents and an 80%
completion rate give raw score `100 − 41 + 16 = 75` and reported score 75. -/
theorem safetyScore_formula :
    (∀ (incidents : List Incident) (checklists : List Checklist) (windowStart now : Int),
      (safetyScore incidents checklists windowStart now).score
        = round (max 0 (min 100
            (100 - (15 * ((getIncidentStats incidents windowStart now).bySeverity.critical : ℚ)
                  + 10 * ((getIncidentStats incidents windowStart now).bySeverity.high : ℚ)
                  + 5 * ((getIncidentStats incidents windowStart now).bySeverity.medium : ℚ)
                  + 2 * ((getIncidentStats incidents windowStart now).bySeverity.low : ℚ))
              + 20 * (((getChecklistStats checklists windowStart now).completionRate : ℚ) / 100))))
      ∧ 0 ≤ (safetyScore incidents checklists windowStart now).score
      ∧ (safetyScore incidents checklists windowStart now).score ≤ 100
      ∧ (safetyScore incidents checklists windowStart now).incidentImpact
          = -(15 * ((getIncidentStats incidents windowStart now).bySeverity.critical : Int)
            + 10 * ((getIncidentStats incidents windowStart now).bySeverity.high : Int)
            + 5 * ((getIncidentStats incidents windowStart now).bySeverity.medium : Int)
            + 2 * ((getIncidentStats incidents windowStart now).bySeverity.low : Int))
      ∧ (safetyScore incidents checklists windowStart now).checklistBonus
          = round (20 * (((getChecklistStats checklists windowStart now).completionRate : ℚ) / 100)))
    ∧ (getChecklistStats scenarioChecklists 0 1000).completionRate = 80
    ∧ (getIncidentStats scenarioIncidents 0 1000).bySeverity
        = { low := 3, medium := 0, high := 2, critical := 1 }
    ∧ ((100 : ℚ) - (15 * 1 + 10 * 2 + 5 * 0 + 2 * 3) + 20 * ((80 : ℚ) / 100) = 75)
    ∧ (safetyScore scenarioIncidents scenarioChecklists 0 1000).score = 75 := by
  have hrate80 : (getChecklistStats scenarioChecklists 0 1000).completionRate = 80 := by
    have htot : (getChecklistStats scenarioChecklists 0 1000).total = 5 := by decide
    have hcomp : (getChecklistStats scenarioChecklists 0 1000).completed = 4 := by decide
    rw [completionRate_eq, if_pos (by omega), htot, hcomp]
    push_cast
    norm_num [round_eq, Int.floor_eq_iff]
  have hmain : ∀ (incidents : List Incident) (checklists : List Checklist)
      (windowStart now : Int),
      (safetyScore incidents checklists windowStart now).score
        = round (max 0 (min 100
            (100 - (15 * ((getIncidentStats incidents windowStart now).bySeverity.critical : ℚ)
                  + 10 * ((getIncidentStats incidents windowStart now).bySeverity.high : ℚ)
                  + 5 * ((getIncidentStats incidents windowStart now).bySeverity.medium : ℚ)
                  + 2 * ((getIncidentStats incidents windowStart now).bySeverity.low : ℚ))
              + 20 * (((getChecklistStats checklists windowStart now).completionRate : ℚ) / 100))))
      ∧ 0 ≤ (safetyScore incidents checklists windowStart now).score
      ∧ (safetyScore incidents checklists windowStart now).score ≤ 100
      ∧ (safetyScore incidents checklists windowStart now).incidentImpact
          = -(15 * ((getIncidentStats incidents windowStart now).bySeverity.critical : Int)
            + 10 * ((getIncidentStats incidents windowStart now).bySeverity.high : Int)
            + 5 * ((getIncidentStats incidents windowStart now).bySeverity.medium : Int)
            + 2 * ((getIncidentStats incidents windowStart now).bySeverity.low : Int))
      ∧ (safetyScore incidents checklists windowStart now).checklistBonus
          = round (20 * (((getChecklistStats checklists windowStart now).completionRate : ℚ) / 100)) := by
    intro incidents checklists windowStart now
    simp only [safetyScore]
    have harith : ∀ c h m l r : ℚ,
        100 - c * 15 - h * 10 - m * 5 - l * 2 + r / 100 * 20
          = 100 - (15 * c + 10 * h + 5 * m + 2 * l) + 20 * (r / 100) := by
      intro c h m l r; ring
    rw [harith]
    set y : ℚ := max 0 (min 100
      (100 - (15 * ((getIncidentStats incidents windowStart now).bySeverity.critical : ℚ)
            + 10 * ((getIncidentStats incidents windowStart now).bySeverity.high : ℚ)
            + 5 * ((getIncidentStats incidents windowStart now).bySeverity.medium : ℚ)
            + 2 * ((getIncidentStats incidents windowStart now).bySeverity.low : ℚ))
        + 20 * (((getChecklistStats checklists windowStart now).completionRate : ℚ) / 100))) with hy
    have h1 : (0 : ℚ) ≤ y := le_max_left _ _
    have h2 : y ≤ 100 := max_le (by norm_num) (min_le_left _ _)
    refine ⟨rfl, ?_, ?_, by ring, by rw [show
      ∀ r : ℚ, r / 100 * 20 = 20 * (r / 100) from fun r => by ring]⟩
    · rw [round_eq]
      exact Int.le_floor.mpr (by push_cast; linarith)
    · rw [round_eq]
      have h3 : (⌊y + 1/2⌋ : ℤ) < 101 := Int.floor_lt.mpr (by push_cast; linarith)
      omega
  refine ⟨hmain, hrate80, by decide, by norm_num, ?_⟩
  have hsev : (getIncidentStats scenarioIncidents 0 1000).bySeverity
      = { low := 3, medium := 0, high := 2, critical := 1 } := by decide
  rw [(hmain scenarioIncidents scenarioChecklists 0 1000).1, hsev, hrate80]
  push_cast
  norm_num [round_eq, Int.floor_eq_iff]

end EoiFirebase
